import Mathlib

/-!
Shallow embedding of django-api-tools (APIModel.py and APIView.py) and
verification of its specification claims.

Modelling conventions:
  - Python strings are Lean `String`; `str.split`, slicing and `startswith`
    are re-implemented over the character list so that they compute.
  - Django model instances live in an explicit store (`Store`), a list of
    `InstData` indexed by position; object references inside attribute
    values are indices into the store.  Mutation of an instance
    (`set_user_auth`, `api_update`) is explicit state passing: functions
    return the updated store.
  - `request.user` is `RUser`; `user.is_authenticated()` is the
    `authenticated` field.  `is_owner` is the per-model polymorphic
    predicate, stored on the instance.
  - Python dicts are association lists (`Dict`) with Python's
    assignment/update semantics (`dictInsert`, `dictUpdate`).
-/

namespace DjangoApiTools

/-- A requesting identity: `request.user`.  `authenticated` models
`user.is_authenticated()`. -/
structure RUser where
  uid : Nat
  authenticated : Bool
deriving DecidableEq, Repr

/-- A scalar Python value as it appears in model attributes. -/
inductive PyVal where
  | vnone
  | vint (n : Int)
  | vstr (s : String)
  | vbool (b : Bool)
deriving DecidableEq, Repr

/-- A model-instance attribute: a scalar, a single related instance
(foreign key / one-to-one, as a store index), or a related manager
(whose `.all()` gives a list of store indices). -/
inductive Attr where
  | scalar (v : PyVal)
  | related (ref : Nat)
  | manager (refs : List Nat)
deriving DecidableEq, Repr

/-- A value stored in a dictified result: a scalar, a nested dictified
object, a list of dictified objects, or a raw (non-serialised) Python
object stuffed into the dict by a plain `getattr`. -/
inductive DVal where
  | prim (v : PyVal)
  | obj (d : List (String × DVal))
  | arr (l : List DVal)
  | raw (a : Attr)

/-- A Python dict with string keys, as an insertion-ordered association
list with unique keys. -/
abbrev Dict := List (String × DVal)

/-- Python `d[k] = v`: replaces the value in place if `k` is present,
otherwise appends the new pair. -/
def dictInsert (d : Dict) (k : String) (v : DVal) : Dict :=
  if d.any (fun kv => kv.1 == k) then
    d.map (fun kv => if kv.1 == k then (k, v) else kv)
  else d ++ [(k, v)]

/-- Python `d1.update(d2)`: keys of `d1` keep their slots with values
replaced from `d2`; keys only in `d2` are appended in order. -/
def dictUpdate (d1 d2 : Dict) : Dict :=
  (d1.map fun kv =>
    match d2.find? (fun kv2 => kv2.1 == kv.1) with
    | some kv2 => (kv.1, kv2.2)
    | none => kv) ++
  d2.filter (fun kv2 => !(d1.any (fun kv => kv.1 == kv2.1)))

/-- The keys of a dict, in order. -/
def keys (d : Dict) : List String := d.map Prod.fst

/-- The values of a dict, in order. -/
def vals (d : Dict) : List DVal := d.map Prod.snd

/-- Python `s.split(sep)` for a one-character separator: splits on every
occurrence, keeping empty pieces. -/
def pySplit (cs : List Char) (sep : Char) : List String :=
  match cs with
  | [] => [""]
  | c :: rest =>
    let r := pySplit rest sep
    if c = sep then "" :: r
    else
      match r with
      | [] => [String.mk [c]]
      | piece :: tail => String.mk (c :: piece.data) :: tail

/-- Python `s[n:]`. -/
def pyDrop (s : String) (n : Nat) : String := String.mk (s.data.drop n)

/-- Python `s.startswith(t)`. -/
def pyStartswith (s t : String) : Bool := t.data.isPrefixOf s.data

/-- Python truthiness of an `Option String` (`None` and `''` are falsy),
as applied to e.g. `request.POST.get('deactivate')`. -/
def pyTruthyOptStr : Option String → Bool
  | none => false
  | some s => s ≠ ""

/-! APIView.py: `ReservedURL` and the URL classifier `APIUrl`. -/

namespace ReservedURL

/-- ReservedURL.LOGIN -/
def LOGIN : String := "login"

/-- ReservedURL.LOGOUT -/
def LOGOUT : String := "logout"

/-- ReservedURL.CSRFTOKEN -/
def CSRFTOKEN : String := "csrftoken"

/-- ReservedURL.all() -/
def all : List String := [LOGIN, LOGOUT, CSRFTOKEN]

end ReservedURL

/-- The state of an `APIUrl` object after construction.  In the source
these are the four attributes read by the `is_*` predicate methods.
`ADDITIONAL_FIELDS` is declared as a class attribute `list()` in the
source and only ever mutated by `append`, so its contents are shared by
every `APIUrl` object of the process; we surface that by passing the
current contents of the class-level list into construction. -/
structure APIUrlState where
  REQUESTED_MODEL : Option String
  REQUESTED_MODEL_INSTANCE : Option String
  ADDITIONAL_FIELDS : List String
  RESERVED_URL : Option String
deriving DecidableEq, Repr

/-- The loop `for i in range(2, len(url_components))` of
`APIUrl.split_url_components`, over the components starting at index 2,
carrying the index `i`.  Matching a reserved URL at `i == 2` breaks out
of the loop. -/
def split_url_loop : List String → Nat → APIUrlState → APIUrlState
  | [], _, st => st
  | c :: rest, i, st =>
    if c = "" then split_url_loop rest (i + 1) st
    else if i = 2 then
      if c ∈ ReservedURL.all then { st with RESERVED_URL := some c }
      else split_url_loop rest (i + 1) { st with REQUESTED_MODEL := some c }
    else if i = 3 then
      split_url_loop rest (i + 1) { st with REQUESTED_MODEL_INSTANCE := some c }
    else
      split_url_loop rest (i + 1)
        { st with ADDITIONAL_FIELDS := st.ADDITIONAL_FIELDS ++ [c] }

/-- `APIUrl.__init__` / `APIUrl.split_url_components`: splits
`request.path` on `/` and consumes the components from position 2.
`sharedAdditionalFields` is the current contents of the class-level
`ADDITIONAL_FIELDS` list (empty only for the first `APIUrl` ever built,
since the list is shared and never reset). -/
def split_url_components (sharedAdditionalFields : List String)
    (path : String) : APIUrlState :=
  let url_components := pySplit path.data '/'
  split_url_loop (url_components.drop 2) 2
    { REQUESTED_MODEL := none
      REQUESTED_MODEL_INSTANCE := none
      ADDITIONAL_FIELDS := sharedAdditionalFields
      RESERVED_URL := none }

/-- `APIUrl.is_valid_request`. -/
def is_valid_request (st : APIUrlState) : Bool :=
  !(st.REQUESTED_MODEL = none) || !(st.RESERVED_URL = none)

/-- `APIUrl.is_reserved_url` (truthiness of the returned attribute). -/
def is_reserved_url (st : APIUrlState) : Bool :=
  pyTruthyOptStr st.RESERVED_URL

/-- `APIUrl.is_model_request` (truthiness of the returned expression). -/
def is_model_request (st : APIUrlState) : Bool :=
  pyTruthyOptStr st.REQUESTED_MODEL && st.REQUESTED_MODEL_INSTANCE.isNone
    && st.ADDITIONAL_FIELDS.isEmpty

/-- `APIUrl.is_model_instance_request` (truthiness of the returned
expression). -/
def is_model_instance_request (st : APIUrlState) : Bool :=
  pyTruthyOptStr st.REQUESTED_MODEL_INSTANCE && st.ADDITIONAL_FIELDS.isEmpty

/-- `APIUrl.is_custom_request`. -/
def is_custom_request (st : APIUrlState) : Bool :=
  !st.ADDITIONAL_FIELDS.isEmpty

/-- The structured request intent of the spec. -/
inductive RequestIntent where
  | invalid
  | reserved (name : String)
  | collection (endpoint : String)
  | instanceReq (endpoint : String) (key : String)
  | custom (endpoint : String) (key : Option String) (segments : List String)
deriving DecidableEq, Repr

/-- The path-to-intent classification realised by `APIView.get`/`post`:
an `APIUrl` is built for the path and the `is_*` predicates are asked in
the dispatch order of the source (valid, reserved, model, model
instance, custom).  `sharedAdditionalFields` is the pre-existing
contents of the class-level `ADDITIONAL_FIELDS` list. -/
def classify (sharedAdditionalFields : List String) (path : String) :
    RequestIntent :=
  let st := split_url_components sharedAdditionalFields path
  if !(is_valid_request st) then RequestIntent.invalid
  else if is_reserved_url st then RequestIntent.reserved (st.RESERVED_URL.getD "")
  else if is_model_request st then
    RequestIntent.collection (st.REQUESTED_MODEL.getD "")
  else if is_model_instance_request st then
    RequestIntent.instanceReq (st.REQUESTED_MODEL.getD "")
      (st.REQUESTED_MODEL_INSTANCE.getD "")
  else if is_custom_request st then
    RequestIntent.custom (st.REQUESTED_MODEL.getD "") st.REQUESTED_MODEL_INSTANCE
      st.ADDITIONAL_FIELDS
  else RequestIntent.invalid

/-! APIModel.py: authorisation codes, reserved relation name beginnings,
and the dictification engine. -/

namespace UserAuthCode

/-- UserAuthCode.PUBLIC -/
def PUBLIC : Nat := 1

/-- UserAuthCode.REGISTERED_USER -/
def REGISTERED_USER : Nat := 2

/-- UserAuthCode.OWNER -/
def OWNER : Nat := 3

end UserAuthCode

namespace ReservedPrefix

/-- ReservedPrefix.FK_SHORT -/
def FK_SHORT : String := "fk_short"

/-- ReservedPrefix.FK_LONG -/
def FK_LONG : String := "fk_long"

/-- ReservedPrefix.REL_SHORT -/
def REL_SHORT : String := "rel_short"

/-- ReservedPrefix.REL_LONG -/
def REL_LONG : String := "rel_long"

/-- ReservedPrefix.ONE_TO_ONE_SHORT -/
def ONE_TO_ONE_SHORT : String := "onetoone_short"

/-- ReservedPrefix.ONE_TO_ONE_LONG -/
def ONE_TO_ONE_LONG : String := "onetoone_long"

/-- ReservedPrefix.MANY_TO_MANY_SHORT -/
def MANY_TO_MANY_SHORT : String := "m2m_short"

/-- ReservedPrefix.MANY_TO_MANY_LONG -/
def MANY_TO_MANY_LONG : String := "m2m_long"

end ReservedPrefix

/-- APIModel._reserved_prefixes, in declaration order. -/
def _reserved_prefixes : List String :=
  [ReservedPrefix.FK_SHORT,
   ReservedPrefix.FK_LONG,
   ReservedPrefix.REL_SHORT,
   ReservedPrefix.REL_LONG,
   ReservedPrefix.ONE_TO_ONE_SHORT,
   ReservedPrefix.ONE_TO_ONE_LONG,
   ReservedPrefix.MANY_TO_MANY_SHORT,
   ReservedPrefix.MANY_TO_MANY_LONG]

/-- The per-instance state of an `APIModel` object: the Django fields
(`active`, `date_deactivated`), the per-type field-tier and verbosity
declarations, the polymorphic `is_owner` predicate, the mutable
authorisation state `_user_auth` / `_curr_user` that `set_user_auth`
stores on the instance, and the remaining attributes reachable by
`getattr`. -/
structure InstData where
  active : Int
  date_deactivated : Option Int
  public_fields : List String
  registered_user_fields : List String
  owner_only_fields : List String
  short_description_fields : List String
  long_description_fields : List String
  is_owner : RUser → Bool
  _user_auth : Nat
  _curr_user : Option RUser
  attrs : List (String × Attr)

/-- The object store: model instances indexed by position.  References
inside `Attr` values are indices into this list. -/
abbrev Store := List InstData

/-- Placeholder instance returned when dereferencing an index outside
the store; unreachable for the well-formed stores of actual requests.
Its `active = 0` makes a dangling dictification return `None`. -/
def defaultInstData : InstData :=
  { active := 0, date_deactivated := none, public_fields := [],
    registered_user_fields := [], owner_only_fields := [],
    short_description_fields := [], long_description_fields := [],
    is_owner := fun _ => false, _user_auth := UserAuthCode.PUBLIC,
    _curr_user := none, attrs := [] }

/-- Dereference a store index. -/
def getD (s : Store) (ref : Nat) : InstData :=
  (s.get? ref).getD defaultInstData

/-- Placeholder for reading `self._curr_user` before `set_user_auth`
ever ran (in Python an `AttributeError`); unreachable through
`dictify_with_auth`, which always calls `set_user_auth` first. -/
def defaultUser : RUser := { uid := 0, authenticated := false }

/-- `getattr(self, name, None)`: the attribute, or Python `None` when
absent. -/
def getattr (d : InstData) (name : String) : Attr :=
  match d.attrs.find? (fun kv => kv.1 == name) with
  | some kv => kv.2
  | none => Attr.scalar PyVal.vnone

/-- The dict value produced by storing a plain `getattr` result:
scalars go in as scalars, model objects go in raw. -/
def attrToDVal : Attr → DVal
  | Attr.scalar v => DVal.prim v
  | a => DVal.raw a

/-- The dict value produced by storing the result of a nested
`dictify_with_auth` call (a dict, or `None` for an inactive instance). -/
def optDict : Option Dict → DVal
  | some d => DVal.obj d
  | none => DVal.prim PyVal.vnone

/-- `APIModel.set_user_auth`: stores `_curr_user` and raises
`_user_auth` to registered / owner for an authenticated user.  Note the
source never lowers `_user_auth`: for an unauthenticated user the
previously stored value is left untouched. -/
def set_user_auth (d : InstData) (u : RUser) : InstData :=
  let d1 := { d with _curr_user := some u }
  if u.authenticated then
    let d2 := { d1 with _user_auth := UserAuthCode.REGISTERED_USER }
    if d2.is_owner u then { d2 with _user_auth := UserAuthCode.OWNER } else d2
  else d1

/-- Rank used for termination: a suppressed (`ommit_related_fields =
True`) call makes no further nested serialisation calls. -/
def ommitRank (ommit : Bool) : Nat := if ommit then 0 else 1

mutual

/-- `APIModel.dictify_with_auth(user, short_dict, ommit_related_fields)`
on the instance at `ref`: returns `None` for an inactive instance,
otherwise stores the authorisation level on the instance and dictifies
short or long. -/
def dictify_with_auth (s : Store) (ref : Nat) (user : RUser)
    (short_dict ommit_related_fields : Bool) : Option Dict × Store :=
  let d := getD s ref
  if d.active = 0 then (none, s)
  else
    let s1 := s.set ref (set_user_auth d user)
    let r :=
      if short_dict then dictify_short s1 ref ommit_related_fields
      else dictify_long s1 ref ommit_related_fields
    (some r.1, r.2)
termination_by ((if ommit_related_fields then 0 else 1 : Nat), 6, 0)

/-- `APIModel.dictify_short`. -/
def dictify_short (s : Store) (ref : Nat) (ommit_related_fields : Bool) :
    Dict × Store :=
  dictify s ref (getD s ref).short_description_fields ommit_related_fields
termination_by ((if ommit_related_fields then 0 else 1 : Nat), 5, 0)

/-- `APIModel.dictify_long`: short plus long description fields. -/
def dictify_long (s : Store) (ref : Nat) (ommit_related_fields : Bool) :
    Dict × Store :=
  dictify s ref
    ((getD s ref).short_description_fields ++ (getD s ref).long_description_fields)
    ommit_related_fields
termination_by ((if ommit_related_fields then 0 else 1 : Nat), 5, 0)

/-- `APIModel.dictify(fields_to_include, ommit_related_fields)`: the
public-tier fields always, the registered-user tier when `_user_auth`
has reached `REGISTERED_USER`, the owner tier when it is `OWNER`; the
three helper results merged with Python dict `update`.  `self` state is
re-read between the helper calls, as in the source. -/
def dictify (s : Store) (ref : Nat) (fields_to_include : List String)
    (ommit_related_fields : Bool) : Dict × Store :=
  let r0 := dictify_helper s ref (getD s ref).public_fields fields_to_include
    ommit_related_fields []
  let acc0 := r0.1
  if UserAuthCode.REGISTERED_USER ≤ (getD r0.2 ref)._user_auth then
    let r1 := dictify_helper r0.2 ref (getD r0.2 ref).registered_user_fields
      fields_to_include ommit_related_fields []
    let acc1 := dictUpdate acc0 r1.1
    if (getD r1.2 ref)._user_auth = UserAuthCode.OWNER then
      let r2 := dictify_helper r1.2 ref (getD r1.2 ref).owner_only_fields
        fields_to_include ommit_related_fields []
      (dictUpdate acc1 r2.1, r2.2)
    else (acc1, r1.2)
  else (acc0, r0.2)
termination_by ((if ommit_related_fields then 0 else 1 : Nat), 4, 0)

/-- The loop of `APIModel.dictify_helper`: each field of
`fields_to_include` that is in `auth_level_fields` is processed by
`dictify_field` into the accumulated dict. -/
def dictify_helper (s : Store) (ref : Nat)
    (auth_level_fields fields_to_include : List String)
    (ommit_related_fields : Bool) (acc : Dict) : Dict × Store :=
  match fields_to_include with
  | [] => (acc, s)
  | field :: rest =>
    if field ∈ auth_level_fields then
      let r := dictify_field s ref field ommit_related_fields acc
      dictify_helper r.2 ref auth_level_fields rest ommit_related_fields r.1
    else
      dictify_helper s ref auth_level_fields rest ommit_related_fields acc
termination_by ((if ommit_related_fields then 0 else 1 : Nat), 3, fields_to_include.length)

/-- The body of the `dictify_helper` loop for one field: plain fields
(no reserved name beginning) read the attribute directly; fields
beginning with a reserved relation tag are skipped when
`ommit_related_fields` is set, and otherwise dictify the related
instance(s), always suppressing further relation expansion in the
nested call. -/
def dictify_field (s : Store) (ref : Nat) (field : String)
    (ommit_related_fields : Bool) (acc : Dict) : Dict × Store :=
  match _reserved_prefixes.filter (fun p => pyStartswith field p) with
  | [] => (dictInsert acc field (attrToDVal (getattr (getD s ref) field)), s)
  | p :: _ =>
    match ommit_related_fields with
    | true => (acc, s)
    | false =>
      let relation := pyDrop field (p.length + 1)
      let val := getattr (getD s ref) relation
      if val = Attr.scalar PyVal.vnone then
        (dictInsert acc relation (DVal.prim PyVal.vnone), s)
      else if p = ReservedPrefix.FK_SHORT ∨ p = ReservedPrefix.ONE_TO_ONE_SHORT then
        match val with
        | Attr.related r =>
          let n := dictify_with_auth s r ((getD s ref)._curr_user.getD defaultUser)
            true true
          (dictInsert acc relation (optDict n.1), n.2)
        | _ => (dictInsert acc relation (DVal.raw val), s)
      else if p = ReservedPrefix.FK_LONG ∨ p = ReservedPrefix.ONE_TO_ONE_LONG then
        match val with
        | Attr.related r =>
          let n := dictify_with_auth s r ((getD s ref)._curr_user.getD defaultUser)
            false true
          (dictInsert acc relation (optDict n.1), n.2)
        | _ => (dictInsert acc relation (DVal.raw val), s)
      else if p = ReservedPrefix.REL_SHORT ∨ p = ReservedPrefix.MANY_TO_MANY_SHORT then
        match val with
        | Attr.manager refs =>
          let n := dictify_list s refs ((getD s ref)._curr_user.getD defaultUser)
            true
          (dictInsert acc relation (DVal.arr n.1), n.2)
        | _ => (dictInsert acc relation (DVal.raw val), s)
      else if p = ReservedPrefix.REL_LONG ∨ p = ReservedPrefix.MANY_TO_MANY_LONG then
        match val with
        | Attr.manager refs =>
          let n := dictify_list s refs ((getD s ref)._curr_user.getD defaultUser)
            false
          (dictInsert acc relation (DVal.arr n.1), n.2)
        | _ => (dictInsert acc relation (DVal.raw val), s)
      else (acc, s)
termination_by ((if ommit_related_fields then 0 else 1 : Nat), 2, 0)

/-- The list comprehension `[rel.dictify_with_auth(self._curr_user,
(short_dict,) ommit_related_fields=True) for rel in val.all()]`,
threading the store left to right. -/
def dictify_list (s : Store) (refs : List Nat) (user : RUser)
    (short_dict : Bool) : List DVal × Store :=
  match refs with
  | [] => ([], s)
  | r :: rest =>
    let n := dictify_with_auth s r user short_dict true
    let l := dictify_list n.2 rest user short_dict
    (optDict n.1 :: l.1, l.2)
termination_by (0, 7, refs.length)

end

/-- The key under which `dictify_helper` files a declared field: the
field name itself for a plain field, the name with the matched reserved
tag plus one character removed for a relation field. -/
def outKey (field : String) : String :=
  match _reserved_prefixes.filter (fun p => pyStartswith field p) with
  | [] => field
  | p :: _ => pyDrop field (p.length + 1)

/-- Whether a field name begins with none of the reserved relation
tags, i.e. is treated as a plain attribute access. -/
def plainField (field : String) : Bool :=
  (_reserved_prefixes.filter (fun p => pyStartswith field p)).isEmpty

/-- A dict value that nests nothing: a scalar or a raw attribute. -/
def scalarVal : DVal → Bool
  | DVal.prim _ => true
  | DVal.raw _ => true
  | _ => false

/-- A dict as produced by a relation-suppressed dictification: every key
is a plain (untagged) field name and every value is a scalar or raw
attribute — no nested dictified object at all. -/
def flatDict (d : Dict) : Bool :=
  d.all fun kv => plainField kv.1 && scalarVal kv.2

/-- A dict value of depth at most one nesting step below the outer
document: a scalar, a raw attribute, a flat nested document, or a list
of scalars, raw attributes and flat nested documents. -/
def depthCappedVal : DVal → Bool
  | DVal.obj d => flatDict d
  | DVal.arr l =>
    l.all fun v =>
      match v with
      | DVal.obj d2 => flatDict d2
      | DVal.arr _ => false
      | v2 => scalarVal v2
  | v => scalarVal v

/-- Serialisation may store `_user_auth` / `_curr_user` on instances but
never touches any other part of an instance: the relation between an
instance and any authorisation-state update of it. -/
def authOnlyUpd (d d2 : InstData) : Prop :=
  d2.active = d.active ∧ d2.date_deactivated = d.date_deactivated ∧
  d2.public_fields = d.public_fields ∧
  d2.registered_user_fields = d.registered_user_fields ∧
  d2.owner_only_fields = d.owner_only_fields ∧
  d2.short_description_fields = d.short_description_fields ∧
  d2.long_description_fields = d.long_description_fields ∧
  d2.is_owner = d.is_owner ∧ d2.attrs = d.attrs

/-- A store evolved from another by authorisation-state updates only. -/
def storeAuthUpd (s s2 : Store) : Prop :=
  s2.length = s.length ∧ ∀ i, authOnlyUpd (getD s i) (getD s2 i)

/-! APIView.py / APIModel.py: the POST-update path of the dispatcher. -/

/-- The inbound request data read by the update path: `request.user` and
`request.POST.get('deactivate')`. -/
structure Request where
  user : RUser
  POST_deactivate : Option String
deriving DecidableEq, Repr

/-- The observable outcome of a dispatcher call: a 200 JSON response
(`UnsafeJSONResponse`), the uniform 404 empty-body failure
(`BadJSONResponse`), or an uncaught Python exception escaping the view. -/
inductive ApiResponse where
  | ok (body : DVal)
  | notFound
  | raised (exn : String)

/-- `APIModel.api_update`: the default update capability.  If the
requester owns the instance and the request carries a truthy
`deactivate` parameter, the instance is marked inactive and the
deactivation timestamp is stamped; the instance is then saved, and
returned when still active, `None` otherwise.  `now` is the value
`datetime.now()` produces during the call.  The first component is the
saved (persisted) instance state, the second the method's return
value. -/
def api_update (d : InstData) (request : Request) (now : Int) :
    InstData × Option InstData :=
  let d1 :=
    if d.is_owner request.user && pyTruthyOptStr request.POST_deactivate then
      { d with active := 0, date_deactivated := some now }
    else d
  (d1, if d1.active ≠ 0 then some d1 else none)

/-- `APIView._post_handler` with `create=False` (a POST to an instance
endpoint, i.e. an update).  `endpoint_is_public` is whether the endpoint
model is in `public_update_endpoints`; `lookup` is the outcome of
`_retrieve_model_instance` (the instance, or `None` when
`get_model_instance` raised `ValueError` or `ObjectDoesNotExist` on a
malformed or unmatched key).  When `lookup` is `None` the source
evaluates `None.api_update(request)`, which raises an `AttributeError`
that the surrounding `try` (catching only `KeyError`) does not stop.  On
success the updated instance is serialised with
`dictify_with_auth(user, short_dict=False)`. -/
def _post_handler_update (s : Store) (endpoint_is_public : Bool)
    (request : Request) (lookup : Option Nat) (now : Int) :
    ApiResponse × Store :=
  if !request.user.authenticated && !endpoint_is_public then
    (ApiResponse.notFound, s)
  else
    match lookup with
    | none => (ApiResponse.raised "AttributeError", s)
    | some ref =>
      let r := api_update (getD s ref) request now
      let s1 := s.set ref r.1
      match r.2 with
      | none => (ApiResponse.notFound, s1)
      | some _ =>
        let j := dictify_with_auth s1 ref request.user false false
        (ApiResponse.ok (optDict j.1), j.2)

/-! Concrete fixtures used by counterexamples and witnesses. -/

/-- An authenticated requester that owns the fixture instances (their
`is_owner` recognises uid 1). -/
def ownerUser : RUser := { uid := 1, authenticated := true }

/-- An unauthenticated requester (`AnonymousUser`), for whom
`is_authenticated()` is false. -/
def anonUser : RUser := { uid := 0, authenticated := false }

/-- An active instance with one public field (`name`) and one owner-only
field (`secret`), owned by uid 1. -/
def leakInst : InstData :=
  { active := 1, date_deactivated := none,
    public_fields := ["name"], registered_user_fields := [],
    owner_only_fields := ["secret"],
    short_description_fields := ["name", "secret"],
    long_description_fields := [],
    is_owner := fun u => u.uid == 1,
    _user_auth := UserAuthCode.PUBLIC, _curr_user := none,
    attrs := [("name", Attr.scalar (PyVal.vstr "n")),
              ("secret", Attr.scalar (PyVal.vstr "s"))] }

/-- The store after the owner of `leakInst` has been served a
serialisation of it: `set_user_auth` has stored `OWNER` on the
instance. -/
def leakStore1 : Store := (dictify_with_auth [leakInst] 0 ownerUser true false).2

/-- A deactivated instance (`active = 0`), otherwise like `leakInst`. -/
def inactiveInst : InstData := { leakInst with active := 0 }

/-- An instance whose declared field `fk_shortname` begins with the
`fk_short` tag but with no separator after it; its attributes hold
a scalar under that full name. -/
def sepInst : InstData :=
  { active := 1, date_deactivated := none,
    public_fields := ["fk_shortname"], registered_user_fields := [],
    owner_only_fields := [],
    short_description_fields := ["fk_shortname"],
    long_description_fields := [],
    is_owner := fun _ => false,
    _user_auth := UserAuthCode.PUBLIC, _curr_user := none,
    attrs := [("fk_shortname", Attr.scalar (PyVal.vint 42))] }

/-- First element of a mutually-referencing pair: its `fk_short_b`
field navigates to `cycB` (store index 1), which refers back. -/
def cycA : InstData :=
  { active := 1, date_deactivated := none,
    public_fields := ["fk_short_b", "x"], registered_user_fields := [],
    owner_only_fields := [],
    short_description_fields := ["fk_short_b", "x"],
    long_description_fields := [],
    is_owner := fun _ => false,
    _user_auth := UserAuthCode.PUBLIC, _curr_user := none,
    attrs := [("b", Attr.related 1), ("x", Attr.scalar (PyVal.vint 7))] }

/-- Second element of the mutually-referencing pair: its `fk_short_a`
field navigates back to `cycA` (store index 0). -/
def cycB : InstData :=
  { active := 1, date_deactivated := none,
    public_fields := ["fk_short_a", "y"], registered_user_fields := [],
    owner_only_fields := [],
    short_description_fields := ["fk_short_a", "y"],
    long_description_fields := [],
    is_owner := fun _ => false,
    _user_auth := UserAuthCode.PUBLIC, _curr_user := none,
    attrs := [("a", Attr.related 0), ("y", Attr.scalar (PyVal.vint 8))] }

/-- The two mutually-referencing instances as a store. -/
def cycStore : Store := [cycA, cycB]

/-! Theorems settling the claims, with their supporting lemmas. -/

/-- C8: on a fresh classification (empty shared segment list) the
classifier maps the spec's example paths as stated, reserved actions
win even with further segments, and empty trailing segments are
skipped. -/
theorem C8_path_classification :
    classify [] "/api/" = RequestIntent.invalid ∧
    classify [] "/api/foo/" = RequestIntent.collection "foo" ∧
    classify [] "/api/foo/1/" = RequestIntent.instanceReq "foo" "1" ∧
    classify [] "/api/foo/1/custom/" = RequestIntent.custom "foo" (some "1") ["custom"] ∧
    classify [] "/api/login/" = RequestIntent.reserved "login" ∧
    classify [] "/api/login/extra/segments/" = RequestIntent.reserved "login" ∧
    classify [] "/api/foo/1//" = RequestIntent.instanceReq "foo" "1" ∧
    classify [] "/api/foo//" = RequestIntent.collection "foo" := by decide

/-- C2: the claim fails on the code — the custom-segments list is a
shared class attribute, so a second classification starts from the
first one's accumulated segments: classifying `/api/a/1/x/` and then
`/api/b/2/y/` leaves the segments of the first path in the second
classification, and even a pure instance request `/api/b/2/` is then
classified as a custom request carrying the stale segment `x`. -/
theorem C2_shared_segments_leak :
    (split_url_components [] "/api/a/1/x/").ADDITIONAL_FIELDS = ["x"] ∧
    (split_url_components (split_url_components [] "/api/a/1/x/").ADDITIONAL_FIELDS
        "/api/b/2/y/").ADDITIONAL_FIELDS = ["x", "y"] ∧
    classify (split_url_components [] "/api/a/1/x/").ADDITIONAL_FIELDS "/api/b/2/"
      = RequestIntent.custom "b" (some "2") ["x"] := by decide

/-- C3: the claim fails on the code — a POST instance update whose
instance lookup fails does not produce the uniform 404 but evaluates
`None.api_update(request)`, raising an `AttributeError` that the
handler (catching only `KeyError`) lets escape. -/
theorem C3_missing_instance_raises :
    _post_handler_update [leakInst] false
        { user := ownerUser, POST_deactivate := none } none 0 =
      (ApiResponse.raised "AttributeError", [leakInst]) ∧
    ApiResponse.raised "AttributeError" ≠ ApiResponse.notFound :=
  ⟨rfl, fun h => ApiResponse.noConfusion h⟩

/-- C5: an inactive instance serialises to `None` for every requester,
every verbosity and every suppression flag, leaving the store
untouched. -/
theorem C5_inactive_serializes_none (s : Store) (ref : Nat) (u : RUser)
    (short_dict ommit : Bool) (h : (getD s ref).active = 0) :
    dictify_with_auth s ref u short_dict ommit = (none, s) := by
  rw [dictify_with_auth]
  simp [h]

/-- C5 witness: the deactivated fixture instance serialises to `None`
even for its owner. -/
theorem C5_inactive_witness :
    (getD [inactiveInst] 0).active = 0 ∧
    dictify_with_auth [inactiveInst] 0 ownerUser true false = (none, [inactiveInst]) :=
  ⟨rfl, C5_inactive_serializes_none [inactiveInst] 0 ownerUser true false rfl⟩

/-- C10 (amended): the default `api_update` touches only `active` and
`date_deactivated`, and only in the owner-and-truthy-deactivate case;
in every other case the instance is persisted unmodified and is
returned exactly when it was already active (`None` for an instance
that was already inactive). -/
theorem C10_update_frame (d : InstData) (u : RUser) (dec : Option String) (now : Int) :
    (¬(d.is_owner u = true ∧ pyTruthyOptStr dec = true) →
      api_update d { user := u, POST_deactivate := dec } now =
        (d, if d.active ≠ 0 then some d else none)) ∧
    (d.is_owner u = true → pyTruthyOptStr dec = true →
      api_update d { user := u, POST_deactivate := dec } now =
        ({ d with active := 0, date_deactivated := some now }, none)) := by
  constructor
  · intro h
    have hc : (d.is_owner u && pyTruthyOptStr dec) = false := by
      cases ho : d.is_owner u <;> cases hd : pyTruthyOptStr dec <;> simp_all
    simp [api_update, hc]
  · intro h1 h2
    simp [api_update, h1, h2]

/-- C10 witness: an owner deactivation updates exactly `active` and
`date_deactivated`. -/
theorem C10_update_frame_witness :
    api_update leakInst { user := ownerUser, POST_deactivate := some "1" } 5 =
      ({ leakInst with active := 0, date_deactivated := some 5 }, none) :=
  (C10_update_frame leakInst ownerUser (some "1") 5).2 rfl (by decide)

/-- C10 counterexample: for an already-inactive instance and a request
that is not an owner deactivation, all fields are left unchanged as the
claim says, but the method returns `None`, not the instance — refuting
the claim's "the instance itself is returned" for this case. -/
theorem C10_counterexample :
    inactiveInst.is_owner anonUser = false ∧
    (api_update inactiveInst { user := anonUser, POST_deactivate := none } 0).1
      = inactiveInst ∧
    (api_update inactiveInst { user := anonUser, POST_deactivate := none } 0).2
      = none ∧
    (api_update inactiveInst { user := anonUser, POST_deactivate := none } 0).2
      ≠ some inactiveInst :=
  ⟨rfl, rfl, rfl, fun h => Option.noConfusion h⟩

/-- C9: a POST instance update by a confirmed owner with a truthy
`deactivate` parameter marks the instance inactive, stamps the
deactivation timestamp, persists it, and the dispatcher answers with
the uniform empty-body 404. -/
theorem C9_deactivate_update (s : Store) (ref : Nat) (u : RUser)
    (dec : Option String) (pub : Bool) (now : Int)
    (hauth : u.authenticated = true)
    (hown : (getD s ref).is_owner u = true)
    (hdec : pyTruthyOptStr dec = true) :
    _post_handler_update s pub { user := u, POST_deactivate := dec } (some ref) now =
      (ApiResponse.notFound,
       s.set ref { getD s ref with active := 0, date_deactivated := some now }) := by
  simp [_post_handler_update, hauth, api_update, hown, hdec]

/-- C9 witness: the owner deactivating the fixture instance gets the
404 outcome and the store holds the deactivated instance. -/
theorem C9_deactivate_witness :
    _post_handler_update [leakInst] false
        { user := ownerUser, POST_deactivate := some "1" } (some 0) 5 =
      (ApiResponse.notFound, [{ leakInst with active := 0, date_deactivated := some 5 }]) := by
  rw [C9_deactivate_update [leakInst] 0 ownerUser (some "1") false 5 rfl rfl (by decide)]
  rfl

/-- The store after the owner has been served: `set_user_auth` left
`OWNER` stored on the instance. -/
theorem leakStore1_eval :
    leakStore1 = [{ leakInst with
      _user_auth := UserAuthCode.OWNER
      _curr_user := some ownerUser }] := by
  have h1 : _reserved_prefixes.filter (fun p => pyStartswith "name" p) = [] := by decide
  have h2 : _reserved_prefixes.filter (fun p => pyStartswith "secret" p) = [] := by decide
  simp [leakStore1, dictify_with_auth, dictify_short, dictify_long, dictify,
    dictify_helper, dictify_field, dictify_list, set_user_auth, getD, getattr,
    leakInst, ownerUser, dictInsert, dictUpdate, keys, attrToDVal, optDict, h1, h2,
    UserAuthCode.PUBLIC, UserAuthCode.REGISTERED_USER, UserAuthCode.OWNER]

/-- C1: the claim fails on the code — after an instance has been
serialised for its owner, serialising the same in-memory instance for
an unauthenticated requester reuses the stale stored `OWNER` tier
(`set_user_auth` never lowers it), so the owner-only field `secret`
leaks; on a fresh copy of the instance the same unauthenticated
requester receives only the public field. -/
theorem C1_stale_tier_leak :
    (getD leakStore1 0)._user_auth = UserAuthCode.OWNER ∧
    keys ((dictify_with_auth leakStore1 0 anonUser true false).1.getD [])
      = ["name", "secret"] ∧
    keys ((dictify_with_auth [leakInst] 0 anonUser true false).1.getD [])
      = ["name"] := by
  have h1 : _reserved_prefixes.filter (fun p => pyStartswith "name" p) = [] := by decide
  have h2 : _reserved_prefixes.filter (fun p => pyStartswith "secret" p) = [] := by decide
  refine ⟨?_, ?_, ?_⟩ <;>
    simp [leakStore1_eval, dictify_with_auth, dictify_short, dictify_long, dictify,
      dictify_helper, dictify_field, dictify_list, set_user_auth, getD, getattr,
      leakInst, ownerUser, anonUser, dictInsert, dictUpdate, keys, attrToDVal,
      optDict, h1, h2,
      UserAuthCode.PUBLIC, UserAuthCode.REGISTERED_USER, UserAuthCode.OWNER]

/-- Inserting into a dict adds at most the inserted key. -/
theorem mem_keys_dictInsert {d : Dict} {k k2 : String} {v : DVal}
    (h : k2 ∈ keys (dictInsert d k v)) : k2 ∈ keys d ∨ k2 = k := by
  unfold dictInsert at h
  split at h
  · simp only [keys, List.map_map, List.mem_map, Function.comp] at h
    obtain ⟨kv, hkv, hfst⟩ := h
    by_cases hk : kv.1 == k
    · simp only [hk, if_pos] at hfst
      exact Or.inr hfst.symm
    · simp only [hk, Bool.false_eq_true, if_neg, not_false_iff] at hfst
      exact Or.inl (List.mem_map.mpr ⟨kv, hkv, hfst⟩)
  · simp only [keys, List.map_append, List.mem_append, List.map_cons, List.map_nil,
      List.mem_singleton] at h
    rcases h with h | h
    · exact Or.inl h
    · exact Or.inr h

/-- Inserting into a dict adds at most the inserted value. -/
theorem mem_vals_dictInsert {d : Dict} {k : String} {v v2 : DVal}
    (h : v2 ∈ vals (dictInsert d k v)) : v2 ∈ vals d ∨ v2 = v := by
  unfold dictInsert at h
  split at h
  · simp only [vals, List.map_map, List.mem_map, Function.comp] at h
    obtain ⟨kv, hkv, hsnd⟩ := h
    by_cases hk : kv.1 == k
    · simp only [hk, if_pos] at hsnd
      exact Or.inr hsnd.symm
    · simp only [hk, Bool.false_eq_true, if_neg, not_false_iff] at hsnd
      exact Or.inl (List.mem_map.mpr ⟨kv, hkv, hsnd⟩)
  · simp only [vals, List.map_append, List.mem_append, List.map_cons, List.map_nil,
      List.mem_singleton] at h
    rcases h with h | h
    · exact Or.inl h
    · exact Or.inr h

/-- Python dict update introduces no key beyond those of the two dicts. -/
theorem mem_keys_dictUpdate {d1 d2 : Dict} {k : String}
    (h : k ∈ keys (dictUpdate d1 d2)) : k ∈ keys d1 ∨ k ∈ keys d2 := by
  unfold dictUpdate at h
  simp only [keys, List.map_append, List.mem_append, List.map_map, List.mem_map,
    Function.comp] at h
  rcases h with ⟨kv, hkv, hfst⟩ | ⟨kv, hkv, hfst⟩
  · left
    refine List.mem_map.mpr ⟨kv, hkv, ?_⟩
    rcases hfind : d2.find? (fun kv2 => kv2.1 == kv.1) with _ | kv2 <;>
      simp only [hfind] at hfst <;> exact hfst
  · exact Or.inr (List.mem_map.mpr ⟨kv, List.mem_of_mem_filter hkv, hfst⟩)

/-- Python dict update introduces no value beyond those of the two dicts. -/
theorem mem_vals_dictUpdate {d1 d2 : Dict} {v : DVal}
    (h : v ∈ vals (dictUpdate d1 d2)) : v ∈ vals d1 ∨ v ∈ vals d2 := by
  unfold dictUpdate at h
  simp only [vals, List.map_append, List.mem_append, List.map_map, List.mem_map,
    Function.comp] at h
  rcases h with ⟨kv, hkv, hsnd⟩ | ⟨kv, hkv, hsnd⟩
  · rcases hfind : d2.find? (fun kv2 => kv2.1 == kv.1) with _ | kv2
    · simp only [hfind] at hsnd
      exact Or.inl (List.mem_map.mpr ⟨kv, hkv, hsnd⟩)
    · simp only [hfind] at hsnd
      exact Or.inr (List.mem_map.mpr ⟨kv2, List.mem_of_find?_eq_some hfind, hsnd⟩)
  · exact Or.inr (List.mem_map.mpr ⟨kv, List.mem_of_mem_filter hkv, hsnd⟩)

/-- Inserting a plain key with a scalar value keeps a dict flat. -/
theorem flatDict_dictInsert {d : Dict} {k : String} {v : DVal}
    (hd : flatDict d = true) (hk : plainField k = true) (hv : scalarVal v = true) :
    flatDict (dictInsert d k v) = true := by
  unfold flatDict at hd ⊢
  rw [List.all_eq_true] at hd
  rw [List.all_eq_true]
  intro kv hkv
  unfold dictInsert at hkv
  split at hkv
  · rw [List.mem_map] at hkv
    obtain ⟨kv0, hkv0, heq⟩ := hkv
    by_cases h0 : kv0.1 == k
    · simp only [h0, if_pos] at heq
      rw [← heq]
      simp [hk, hv]
    · simp only [h0, Bool.false_eq_true, if_neg, not_false_iff] at heq
      rw [← heq]
      exact hd kv0 hkv0
  · rcases List.mem_append.mp hkv with h | h
    · exact hd kv h
    · rw [List.mem_singleton] at h
      subst h
      simp [hk, hv]

/-- Python dict update of two flat dicts is flat. -/
theorem flatDict_dictUpdate {d1 d2 : Dict}
    (h1 : flatDict d1 = true) (h2 : flatDict d2 = true) :
    flatDict (dictUpdate d1 d2) = true := by
  unfold flatDict at h1 h2 ⊢
  rw [List.all_eq_true] at h1 h2
  rw [List.all_eq_true]
  intro kv hkv
  unfold dictUpdate at hkv
  rcases List.mem_append.mp hkv with h | h
  · rw [List.mem_map] at h
    obtain ⟨kv0, hkv0, heq⟩ := h
    rcases hfind : d2.find? (fun kv2 => kv2.1 == kv0.1) with _ | kv2
    · simp only [hfind] at heq
      rw [← heq]
      exact h1 kv0 hkv0
    · simp only [hfind] at heq
      rw [← heq]
      have ha := h1 kv0 hkv0
      have hb := h2 kv2 (List.mem_of_find?_eq_some hfind)
      simp only [Bool.and_eq_true] at ha hb ⊢
      exact ⟨ha.1, hb.2⟩
  · exact h2 kv (List.mem_of_mem_filter h)

/-- Dereferencing after a store write. -/
theorem getD_set (s : Store) (ref : Nat) (d2 : InstData) (i : Nat) :
    getD (s.set ref d2) i = if ref = i ∧ ref < s.length then d2 else getD s i := by
  unfold getD
  rw [List.get?_eq_getElem?, List.get?_eq_getElem?, List.getElem?_set]
  by_cases h1 : ref = i
  · subst h1
    by_cases h2 : ref < s.length
    · simp [h2]
    · simp only [h2, and_false, if_false, if_pos rfl, if_true]
      rw [List.getElem?_eq_none (by omega)]
  · simp [h1]

/-- An instance is an authorisation-state update of itself. -/
theorem authOnlyUpd_refl (d : InstData) : authOnlyUpd d d :=
  ⟨rfl, rfl, rfl, rfl, rfl, rfl, rfl, rfl, rfl⟩

/-- Authorisation-state updates compose. -/
theorem authOnlyUpd_trans {d1 d2 d3 : InstData}
    (h1 : authOnlyUpd d1 d2) (h2 : authOnlyUpd d2 d3) : authOnlyUpd d1 d3 := by
  obtain ⟨a1, b1, c1, e1, f1, g1, i1, j1, k1⟩ := h1
  obtain ⟨a2, b2, c2, e2, f2, g2, i2, j2, k2⟩ := h2
  exact ⟨a2.trans a1, b2.trans b1, c2.trans c1, e2.trans e1, f2.trans f1,
    g2.trans g1, i2.trans i1, j2.trans j1, k2.trans k1⟩

/-- `set_user_auth` changes only the authorisation state. -/
theorem set_user_auth_authOnlyUpd (d : InstData) (u : RUser) :
    authOnlyUpd d (set_user_auth d u) := by
  unfold set_user_auth authOnlyUpd
  dsimp only
  split
  · split
    · exact ⟨rfl, rfl, rfl, rfl, rfl, rfl, rfl, rfl, rfl⟩
    · exact ⟨rfl, rfl, rfl, rfl, rfl, rfl, rfl, rfl, rfl⟩
  · exact ⟨rfl, rfl, rfl, rfl, rfl, rfl, rfl, rfl, rfl⟩

/-- A store is an authorisation-state update of itself. -/
theorem storeAuthUpd_refl (s : Store) : storeAuthUpd s s :=
  ⟨rfl, fun _ => authOnlyUpd_refl _⟩

/-- Store authorisation-state updates compose. -/
theorem storeAuthUpd_trans {s1 s2 s3 : Store}
    (h1 : storeAuthUpd s1 s2) (h2 : storeAuthUpd s2 s3) : storeAuthUpd s1 s3 :=
  ⟨h2.1.trans h1.1, fun i => authOnlyUpd_trans (h1.2 i) (h2.2 i)⟩

/-- Writing an authorisation-state update of an instance back into the
store is a store authorisation-state update. -/
theorem storeAuthUpd_set {s : Store} {ref : Nat} {d2 : InstData}
    (h : authOnlyUpd (getD s ref) d2) : storeAuthUpd s (s.set ref d2) := by
  refine ⟨by simp, fun i => ?_⟩
  rw [getD_set]
  split_ifs with hc
  · obtain ⟨h1, _⟩ := hc
    subst h1
    exact h
  · exact authOnlyUpd_refl _

/-- One suppressed field step: a plain field is stored, a tagged field
is skipped, and the store is untouched. -/
theorem dictify_field_true_eq (s : Store) (ref : Nat) (field : String) (acc : Dict) :
    dictify_field s ref field true acc =
      (if plainField field = true then
        dictInsert acc field (attrToDVal (getattr (getD s ref) field))
      else acc, s) := by
  rcases hf : _reserved_prefixes.filter (fun p => pyStartswith field p) with _ | ⟨p, rest⟩ <;>
    simp [dictify_field, hf, plainField]

/-- A suppressed helper run stores exactly the plain fields of the
requested set that are in the tier set, and never touches the store. -/
theorem dictify_helper_true_eq (s : Store) (ref : Nat)
    (a f : List String) (acc : Dict) :
    dictify_helper s ref a f true acc =
      (f.foldl (fun acc2 field =>
        if field ∈ a ∧ plainField field = true then
          dictInsert acc2 field (attrToDVal (getattr (getD s ref) field))
        else acc2) acc, s) := by
  induction f generalizing acc with
  | nil => simp [dictify_helper]
  | cons field rest ih =>
    rw [dictify_helper]
    by_cases hmem : field ∈ a
    · rw [if_pos hmem, dictify_field_true_eq]
      dsimp only
      by_cases hp : plainField field = true
      · rw [if_pos hp, ih]
        simp only [List.foldl_cons]
        rw [if_pos (And.intro hmem hp)]
      · rw [if_neg hp, ih]
        simp only [List.foldl_cons]
        rw [if_neg (fun hc => hp hc.2)]
    · rw [if_neg hmem, ih]
      simp only [List.foldl_cons]
      rw [if_neg (fun hc => hmem hc.1)]

/-- A suppressed dictify run never touches the store. -/
theorem dictify_true_store (s : Store) (ref : Nat) (inc : List String) :
    (dictify s ref inc true).2 = s := by
  rw [dictify]
  simp only [dictify_helper_true_eq]
  split_ifs <;> rfl

/-- A suppressed serialisation call at most stores the authorisation
level on its own instance. -/
theorem dictify_with_auth_true_store (s : Store) (ref : Nat) (u : RUser) (sd : Bool) :
    storeAuthUpd s (dictify_with_auth s ref u sd true).2 := by
  by_cases h : (getD s ref).active = 0
  · rw [dictify_with_auth]
    simp only [h, if_true]
    exact storeAuthUpd_refl s
  · rw [dictify_with_auth]
    cases sd <;>
      simp only [h, if_false, Bool.false_eq_true, if_true, dictify_short, dictify_long,
        dictify_true_store] <;>
      exact storeAuthUpd_set (set_user_auth_authOnlyUpd _ _)

/-- Serialising a list of related instances only performs
authorisation-state updates on the store. -/
theorem dictify_list_store (s : Store) (refs : List Nat) (u : RUser) (sd : Bool) :
    storeAuthUpd s (dictify_list s refs u sd).2 := by
  induction refs generalizing s with
  | nil =>
    rw [dictify_list]
    exact storeAuthUpd_refl s
  | cons r rest ih =>
    rw [dictify_list]
    exact storeAuthUpd_trans (dictify_with_auth_true_store s r u sd) (ih _)

/-- Processing one field only performs authorisation-state updates on
the store. -/
theorem dictify_field_store (s : Store) (ref : Nat) (field : String)
    (om : Bool) (acc : Dict) :
    storeAuthUpd s (dictify_field s ref field om acc).2 := by
  cases om
  · rw [dictify_field]
    split
    · exact storeAuthUpd_refl s
    · dsimp only
      split_ifs <;> try exact storeAuthUpd_refl s
      all_goals split <;>
        first
          | exact storeAuthUpd_refl s
          | exact dictify_with_auth_true_store _ _ _ _
          | exact dictify_list_store _ _ _ _
  · rw [dictify_field_true_eq]
    exact storeAuthUpd_refl s

/-- The helper loop only performs authorisation-state updates on the
store. -/
theorem dictify_helper_store (s : Store) (ref : Nat) (a f : List String)
    (om : Bool) (acc : Dict) :
    storeAuthUpd s (dictify_helper s ref a f om acc).2 := by
  induction f generalizing s acc with
  | nil =>
    rw [dictify_helper]
    exact storeAuthUpd_refl s
  | cons field rest ih =>
    rw [dictify_helper]
    by_cases hmem : field ∈ a
    · rw [if_pos hmem]
      exact storeAuthUpd_trans (dictify_field_store s ref field _ acc) (ih _ _)
    · rw [if_neg hmem]
      exact ih s acc

/-- `dictify` only performs authorisation-state updates on the store. -/
theorem dictify_store (s : Store) (ref : Nat) (inc : List String) (om : Bool) :
    storeAuthUpd s (dictify s ref inc om).2 := by
  rw [dictify]
  dsimp only
  split_ifs <;>
    first
      | exact storeAuthUpd_trans (dictify_helper_store _ _ _ _ _ _)
          (storeAuthUpd_trans (dictify_helper_store _ _ _ _ _ _)
            (dictify_helper_store _ _ _ _ _ _))
      | exact storeAuthUpd_trans (dictify_helper_store _ _ _ _ _ _)
          (dictify_helper_store _ _ _ _ _ _)
      | exact dictify_helper_store _ _ _ _ _ _

/-- A serialisation call only performs authorisation-state updates on
the store: every instance keeps its fields, attributes, activity flag
and ownership predicate. -/
theorem dictify_with_auth_store (s : Store) (ref : Nat) (u : RUser) (sd om : Bool) :
    storeAuthUpd s (dictify_with_auth s ref u sd om).2 := by
  by_cases h : (getD s ref).active = 0
  · rw [dictify_with_auth]
    simp only [h, if_true]
    exact storeAuthUpd_refl s
  · rw [dictify_with_auth]
    cases sd <;>
      simp only [h, if_false, Bool.false_eq_true, if_true, dictify_short, dictify_long] <;>
      exact storeAuthUpd_trans (storeAuthUpd_set (set_user_auth_authOnlyUpd _ _))
        (dictify_store _ _ _ _)

/-- A plain `getattr` value is a scalar or a raw attribute. -/
theorem scalarVal_attrToDVal (a : Attr) : scalarVal (attrToDVal a) = true := by
  cases a <;> rfl

/-- Scalar values are depth-capped. -/
theorem depthCapped_of_scalar {v : DVal} (h : scalarVal v = true) :
    depthCappedVal v = true := by
  cases v <;> simp_all [scalarVal, depthCappedVal]

/-- A plain field's filed key is the field name itself. -/
theorem outKey_of_plain {field : String} (h : plainField field = true) :
    outKey field = field := by
  unfold plainField at h
  unfold outKey
  rcases hf : _reserved_prefixes.filter (fun p => pyStartswith field p) with _ | ⟨p, rest⟩
  · rfl
  · rw [hf] at h
    simp at h

/-- The suppressed helper fold preserves flatness. -/
theorem flatDict_helper_foldl (s : Store) (ref : Nat) (a : List String)
    (f : List String) (acc : Dict) (hacc : flatDict acc = true) :
    flatDict (f.foldl (fun acc2 field =>
      if field ∈ a ∧ plainField field = true then
        dictInsert acc2 field (attrToDVal (getattr (getD s ref) field))
      else acc2) acc) = true := by
  induction f generalizing acc with
  | nil => exact hacc
  | cons field rest ih =>
    simp only [List.foldl_cons]
    by_cases hc : field ∈ a ∧ plainField field = true
    · rw [if_pos hc]
      exact ih _ (flatDict_dictInsert hacc hc.2 (scalarVal_attrToDVal _))
    · rw [if_neg hc]
      exact ih _ hacc

/-- A suppressed dictify produces a flat dict: only plain fields, only
scalar or raw values. -/
theorem dictify_true_flat (s : Store) (ref : Nat) (inc : List String) :
    flatDict (dictify s ref inc true).1 = true := by
  rw [dictify]
  simp only [dictify_helper_true_eq]
  split_ifs <;>
    first
      | exact flatDict_dictUpdate
          (flatDict_dictUpdate (flatDict_helper_foldl _ _ _ _ _ rfl)
            (flatDict_helper_foldl _ _ _ _ _ rfl))
          (flatDict_helper_foldl _ _ _ _ _ rfl)
      | exact flatDict_dictUpdate (flatDict_helper_foldl _ _ _ _ _ rfl)
          (flatDict_helper_foldl _ _ _ _ _ rfl)
      | exact flatDict_helper_foldl _ _ _ _ _ rfl

/-- A suppressed serialisation that yields a document yields a flat
one: every relation-tagged field was skipped entirely and every stored
value is a scalar or raw attribute. -/
theorem dictify_with_auth_true_flat (s : Store) (ref : Nat) (u : RUser) (sd : Bool)
    {dct : Dict} (h : (dictify_with_auth s ref u sd true).1 = some dct) :
    flatDict dct = true := by
  by_cases ha : (getD s ref).active = 0
  · rw [dictify_with_auth] at h
    simp [ha] at h
  · rw [dictify_with_auth] at h
    cases sd <;>
      simp only [ha, Bool.false_eq_true, if_false, if_true, dictify_short, dictify_long,
        Option.some.injEq] at h <;>
      rw [← h] <;>
      exact dictify_true_flat _ _ _

/-- Every element produced for a to-many relation is a scalar or a flat
document. -/
theorem dictify_list_elems (s : Store) (refs : List Nat) (u : RUser) (sd : Bool) :
    ∀ v ∈ (dictify_list s refs u sd).1,
      (match v with
        | DVal.obj d2 => flatDict d2
        | DVal.arr _ => false
        | v2 => scalarVal v2) = true := by
  induction refs generalizing s with
  | nil =>
    rw [dictify_list]
    intro v hv
    simp at hv
  | cons r rest ih =>
    rw [dictify_list]
    intro v hv
    dsimp only at hv
    rcases List.mem_cons.mp hv with h | h
    · subst h
      rcases hn : (dictify_with_auth s r u sd true).1 with _ | dct
      · simp [optDict, scalarVal]
      · have hflat := dictify_with_auth_true_flat s r u sd hn
        simp [optDict, hflat]
    · exact ih _ v h

/-- A nested single-relation serialisation stores a depth-capped
value. -/
theorem depthCapped_optDict_with_auth (s : Store) (r : Nat) (u : RUser) (sd : Bool) :
    depthCappedVal (optDict (dictify_with_auth s r u sd true).1) = true := by
  rcases hn : (dictify_with_auth s r u sd true).1 with _ | dct
  · rfl
  · simp only [optDict, depthCappedVal]
    exact dictify_with_auth_true_flat s r u sd hn

/-- A nested to-many serialisation stores a depth-capped value. -/
theorem depthCapped_arr_list (s : Store) (refs : List Nat) (u : RUser) (sd : Bool) :
    depthCappedVal (DVal.arr (dictify_list s refs u sd).1) = true := by
  simp only [depthCappedVal, List.all_eq_true]
  intro v hv
  exact dictify_list_elems s refs u sd v hv

/-- An unsuppressed field step on a relation-eligible field always
stores exactly one key — the filed key of the field — and the stored
value is depth-capped. -/
theorem dictify_field_false_insert (s : Store) (ref : Nat) (field : String)
    (acc : Dict) :
    ∃ v, (dictify_field s ref field false acc).1 = dictInsert acc (outKey field) v ∧
      depthCappedVal v = true := by
  rcases hf : _reserved_prefixes.filter (fun p => pyStartswith field p) with _ | ⟨p, rest⟩
  · refine ⟨attrToDVal (getattr (getD s ref) field), ?_, ?_⟩
    · rw [outKey, hf]
      simp [dictify_field, hf]
    · exact depthCapped_of_scalar (scalarVal_attrToDVal _)
  · have hp : p ∈ _reserved_prefixes :=
      List.mem_of_mem_filter (hf ▸ List.mem_cons_self p rest)
    have hout : outKey field = pyDrop field (p.length + 1) := by rw [outKey, hf]
    rw [hout]
    by_cases hv0 : getattr (getD s ref) (pyDrop field (p.length + 1)) = Attr.scalar PyVal.vnone
    · exact ⟨DVal.prim PyVal.vnone, by simp [dictify_field, hf, hv0], rfl⟩
    · simp only [_reserved_prefixes, List.mem_cons, List.not_mem_nil, or_false] at hp
      rcases hval : getattr (getD s ref) (pyDrop field (p.length + 1)) with v | r | mrefs <;>
        rcases hp with h|h|h|h|h|h|h|h <;> subst h <;>
        rw [dictify_field, hf] <;> dsimp only <;> rw [if_neg hv0] <;>
        (repeat' first | rw [if_pos (by decide)] | rw [if_neg (by decide)]) <;>
        rw [hval] <;> dsimp only <;>
        first
          | exact ⟨_, rfl, rfl⟩
          | exact ⟨_, rfl, depthCapped_optDict_with_auth _ _ _ _⟩
          | exact ⟨_, rfl, depthCapped_arr_list _ _ _ _⟩

/-- Store authorisation-state updates preserve the public tier list. -/
theorem storeAuthUpd_public {s s2 : Store} (h : storeAuthUpd s s2) (i : Nat) :
    (getD s2 i).public_fields = (getD s i).public_fields := (h.2 i).2.2.1

/-- Store authorisation-state updates preserve the registered tier
list. -/
theorem storeAuthUpd_registered {s s2 : Store} (h : storeAuthUpd s s2) (i : Nat) :
    (getD s2 i).registered_user_fields = (getD s i).registered_user_fields :=
  (h.2 i).2.2.2.1

/-- Store authorisation-state updates preserve the owner tier list. -/
theorem storeAuthUpd_owner {s s2 : Store} (h : storeAuthUpd s s2) (i : Nat) :
    (getD s2 i).owner_only_fields = (getD s i).owner_only_fields :=
  (h.2 i).2.2.2.2.1

/-- A field step files keys only under the processed field's filed
key. -/
theorem dictify_field_keys {s : Store} {ref : Nat} {field : String}
    {om : Bool} {acc : Dict} {k : String}
    (h : k ∈ keys (dictify_field s ref field om acc).1) :
    k ∈ keys acc ∨ k = outKey field := by
  cases om
  · obtain ⟨v, hv, _⟩ := dictify_field_false_insert s ref field acc
    rw [hv] at h
    exact mem_keys_dictInsert h
  · rw [dictify_field_true_eq] at h
    dsimp only at h
    split_ifs at h with hc
    · rcases mem_keys_dictInsert h with h1 | h1
      · exact Or.inl h1
      · exact Or.inr (h1.trans (outKey_of_plain hc).symm)
    · exact Or.inl h

/-- A field step stores only depth-capped values beyond the
accumulator. -/
theorem dictify_field_vals {s : Store} {ref : Nat} {field : String}
    {om : Bool} {acc : Dict} {v : DVal}
    (h : v ∈ vals (dictify_field s ref field om acc).1) :
    v ∈ vals acc ∨ depthCappedVal v = true := by
  cases om
  · obtain ⟨v0, hv0, hcap⟩ := dictify_field_false_insert s ref field acc
    rw [hv0] at h
    rcases mem_vals_dictInsert h with h1 | h1
    · exact Or.inl h1
    · exact Or.inr (h1 ▸ hcap)
  · rw [dictify_field_true_eq] at h
    dsimp only at h
    split_ifs at h with hc
    · rcases mem_vals_dictInsert h with h1 | h1
      · exact Or.inl h1
      · exact Or.inr (h1 ▸ depthCapped_of_scalar (scalarVal_attrToDVal _))
    · exact Or.inl h

/-- The helper loop files keys only under filed keys of fields of the
tier list. -/
theorem dictify_helper_keys {s : Store} {ref : Nat} {a f : List String}
    {om : Bool} {acc : Dict} {k : String}
    (h : k ∈ keys (dictify_helper s ref a f om acc).1) :
    k ∈ keys acc ∨ ∃ field ∈ a, k = outKey field := by
  induction f generalizing s acc with
  | nil =>
    rw [dictify_helper] at h
    exact Or.inl h
  | cons field rest ih =>
    rw [dictify_helper] at h
    by_cases hmem : field ∈ a
    · rw [if_pos hmem] at h
      rcases ih h with h1 | h1
      · rcases dictify_field_keys h1 with h2 | h2
        · exact Or.inl h2
        · exact Or.inr ⟨field, hmem, h2⟩
      · exact Or.inr h1
    · rw [if_neg hmem] at h
      exact ih h

/-- The helper loop stores only depth-capped values beyond the
accumulator. -/
theorem dictify_helper_vals {s : Store} {ref : Nat} {a f : List String}
    {om : Bool} {acc : Dict} {v : DVal}
    (h : v ∈ vals (dictify_helper s ref a f om acc).1) :
    v ∈ vals acc ∨ depthCappedVal v = true := by
  induction f generalizing s acc with
  | nil =>
    rw [dictify_helper] at h
    exact Or.inl h
  | cons field rest ih =>
    rw [dictify_helper] at h
    by_cases hmem : field ∈ a
    · rw [if_pos hmem] at h
      rcases ih h with h1 | h1
      · exact dictify_field_vals h1
      · exact Or.inr h1
    · rw [if_neg hmem] at h
      exact ih h

/-- Every key of a `dictify` result is the filed key of a field
declared in one of the three tier lists of the serialised instance. -/
theorem dictify_keys {s : Store} {ref : Nat} {inc : List String} {om : Bool}
    {k : String} (h : k ∈ keys (dictify s ref inc om).1) :
    ∃ field, (field ∈ (getD s ref).public_fields ∨
      field ∈ (getD s ref).registered_user_fields ∨
      field ∈ (getD s ref).owner_only_fields) ∧ k = outKey field := by
  have hstA : storeAuthUpd s
      (dictify_helper s ref (getD s ref).public_fields inc om []).2 :=
    dictify_helper_store _ _ _ _ _ _
  rw [dictify] at h
  dsimp only at h
  split_ifs at h with h1 h2
  · rcases mem_keys_dictUpdate h with h3 | h3
    · rcases mem_keys_dictUpdate h3 with h4 | h4
      · rcases dictify_helper_keys h4 with h5 | ⟨field, hmem, hout⟩
        · simp [keys] at h5
        · exact ⟨field, Or.inl hmem, hout⟩
      · rcases dictify_helper_keys h4 with h5 | ⟨field, hmem, hout⟩
        · simp [keys] at h5
        · rw [storeAuthUpd_registered hstA] at hmem
          exact ⟨field, Or.inr (Or.inl hmem), hout⟩
    · rcases dictify_helper_keys h3 with h5 | ⟨field, hmem, hout⟩
      · simp [keys] at h5
      · rw [storeAuthUpd_owner (storeAuthUpd_trans hstA
          (dictify_helper_store _ _ _ _ _ _))] at hmem
        exact ⟨field, Or.inr (Or.inr hmem), hout⟩
  · rcases mem_keys_dictUpdate h with h3 | h3
    · rcases dictify_helper_keys h3 with h5 | ⟨field, hmem, hout⟩
      · simp [keys] at h5
      · exact ⟨field, Or.inl hmem, hout⟩
    · rcases dictify_helper_keys h3 with h5 | ⟨field, hmem, hout⟩
      · simp [keys] at h5
      · rw [storeAuthUpd_registered hstA] at hmem
        exact ⟨field, Or.inr (Or.inl hmem), hout⟩
  · rcases dictify_helper_keys h with h5 | ⟨field, hmem, hout⟩
    · simp [keys] at h5
    · exact ⟨field, Or.inl hmem, hout⟩

/-- Every value of a `dictify` result is depth-capped. -/
theorem dictify_vals {s : Store} {ref : Nat} {inc : List String} {om : Bool}
    {v : DVal} (h : v ∈ vals (dictify s ref inc om).1) :
    depthCappedVal v = true := by
  rw [dictify] at h
  dsimp only at h
  split_ifs at h with h1 h2
  · rcases mem_vals_dictUpdate h with h3 | h3
    · rcases mem_vals_dictUpdate h3 with h4 | h4 <;>
        rcases dictify_helper_vals h4 with h5 | h5 <;>
        first
          | (simp [vals] at h5)
          | exact h5
    · rcases dictify_helper_vals h3 with h5 | h5
      · simp [vals] at h5
      · exact h5
  · rcases mem_vals_dictUpdate h with h3 | h3 <;>
      rcases dictify_helper_vals h3 with h5 | h5 <;>
      first
        | (simp [vals] at h5)
        | exact h5
  · rcases dictify_helper_vals h with h5 | h5
    · simp [vals] at h5
    · exact h5

/-- The first filter survivor is the first satisfying element. -/
theorem head?_filter (l : List String) (q : String → Bool) :
    (l.filter q).head? = l.find? q := by
  induction l with
  | nil => rfl
  | cons x t ih =>
    by_cases h : q x <;> simp [List.filter_cons, List.find?_cons, h, ih]

/-- C7: every key of a serialised document is the filed key of a field
declared in the public, registered-user, or owner-only tier list of the
serialised instance — an undeclared field name never yields an output
key, for every requester, verbosity and suppression flag. -/
theorem C7_keys_declared (s : Store) (ref : Nat) (u : RUser) (sd om : Bool)
    (dct : Dict) (s2 : Store)
    (h : dictify_with_auth s ref u sd om = (some dct, s2))
    (k : String) (hk : k ∈ keys dct) :
    ∃ field, (field ∈ (getD s ref).public_fields ∨
      field ∈ (getD s ref).registered_user_fields ∨
      field ∈ (getD s ref).owner_only_fields) ∧ k = outKey field := by
  have hupd : storeAuthUpd s (s.set ref (set_user_auth (getD s ref) u)) :=
    storeAuthUpd_set (set_user_auth_authOnlyUpd _ _)
  by_cases ha : (getD s ref).active = 0
  · rw [dictify_with_auth] at h
    simp [ha] at h
  · rw [dictify_with_auth] at h
    dsimp only at h
    rw [if_neg ha] at h
    cases sd <;>
      simp only [Bool.false_eq_true, if_false, if_true, dictify_short, dictify_long,
        Prod.mk.injEq, Option.some.injEq] at h <;>
      obtain ⟨hfst, _⟩ := h <;>
      rw [← hfst] at hk <;>
      obtain ⟨field, hmem, hout⟩ := dictify_keys hk <;>
      refine ⟨field, ?_, hout⟩ <;>
      rwa [storeAuthUpd_public hupd, storeAuthUpd_registered hupd,
        storeAuthUpd_owner hupd] at hmem

/-- C7 witness: in the owner's serialisation of the fixture instance,
the key `secret` is the filed key of a declared field. -/
theorem C7_keys_witness :
    ∃ field, (field ∈ (getD [leakInst] 0).public_fields ∨
      field ∈ (getD [leakInst] 0).registered_user_fields ∨
      field ∈ (getD [leakInst] 0).owner_only_fields) ∧ "secret" = outKey field := by
  have h1 : _reserved_prefixes.filter (fun p => pyStartswith "name" p) = [] := by decide
  have h2 : _reserved_prefixes.filter (fun p => pyStartswith "secret" p) = [] := by decide
  exact C7_keys_declared [leakInst] 0 ownerUser true false
    [("name", DVal.prim (PyVal.vstr "n")), ("secret", DVal.prim (PyVal.vstr "s"))]
    [{ leakInst with
        _user_auth := UserAuthCode.OWNER
        _curr_user := some ownerUser }]
    (by
      simp [dictify_with_auth, dictify_short, dictify_long, dictify,
        dictify_helper, dictify_field, dictify_list, set_user_auth, getD, getattr,
        leakInst, ownerUser, dictInsert, dictUpdate, keys, attrToDVal, optDict, h1, h2,
        UserAuthCode.PUBLIC, UserAuthCode.REGISTERED_USER, UserAuthCode.OWNER])
    "secret" (by simp [keys])

/-- C6: relation expansion is hard-capped at one level.  A suppressed
serialisation yields a flat document (every relation-tagged field is
skipped entirely — the helper equals a fold over the plain fields only —
and no value nests a document).  An unsuppressed serialisation stores
only depth-capped values: scalars, raw attributes, flat documents, or
lists of these, so a doubly-nested field never appears and mutual
references terminate by construction. -/
theorem C6_depth_cap (s : Store) (ref : Nat) (u : RUser) (sd : Bool) :
    (∀ dct, (dictify_with_auth s ref u sd true).1 = some dct → flatDict dct = true) ∧
    (∀ a f acc, dictify_helper s ref a f true acc =
      (f.foldl (fun acc2 field =>
        if field ∈ a ∧ plainField field = true then
          dictInsert acc2 field (attrToDVal (getattr (getD s ref) field))
        else acc2) acc, s)) ∧
    (∀ dct, (dictify_with_auth s ref u sd false).1 = some dct →
      ∀ v ∈ vals dct, depthCappedVal v = true) := by
  refine ⟨fun dct h => dictify_with_auth_true_flat s ref u sd h,
    fun a f acc => dictify_helper_true_eq s ref a f acc,
    fun dct h v hv => ?_⟩
  by_cases ha : (getD s ref).active = 0
  · rw [dictify_with_auth] at h
    simp [ha] at h
  · rw [dictify_with_auth] at h
    dsimp only at h
    rw [if_neg ha] at h
    cases sd <;>
      simp only [Bool.false_eq_true, if_false, if_true, dictify_short, dictify_long,
        Option.some.injEq] at h <;>
      rw [← h] at hv <;>
      exact dictify_vals hv

/-- C6 witness: serialising the first of two mutually-referencing
instances terminates with the related document nested once, the
back-reference absent from it, and every value depth-capped. -/
theorem C6_depth_witness :
    ∀ v ∈ vals [("b", DVal.obj [("y", DVal.prim (PyVal.vint 8))]),
      ("x", DVal.prim (PyVal.vint 7))], depthCappedVal v = true := by
  have hb : _reserved_prefixes.filter (fun p => pyStartswith "fk_short_b" p)
      = [ReservedPrefix.FK_SHORT] := by decide
  have hx : _reserved_prefixes.filter (fun p => pyStartswith "x" p) = [] := by decide
  have ha2 : _reserved_prefixes.filter (fun p => pyStartswith "fk_short_a" p)
      = [ReservedPrefix.FK_SHORT] := by decide
  have hy : _reserved_prefixes.filter (fun p => pyStartswith "y" p) = [] := by decide
  have hdb : pyDrop "fk_short_b" (ReservedPrefix.FK_SHORT.length + 1) = "b" := by decide
  have hda : pyDrop "fk_short_a" (ReservedPrefix.FK_SHORT.length + 1) = "a" := by decide
  exact (C6_depth_cap cycStore 0 anonUser true).2.2
    [("b", DVal.obj [("y", DVal.prim (PyVal.vint 8))]),
      ("x", DVal.prim (PyVal.vint 7))]
    (by
      simp [dictify_with_auth, dictify_short, dictify_long, dictify,
        dictify_helper, dictify_field, dictify_list, set_user_auth, getD, getattr,
        cycStore, cycA, cycB, anonUser, dictInsert, dictUpdate, keys, attrToDVal,
        optDict, hb, hx, ha2, hy, hdb, hda,
        UserAuthCode.PUBLIC, UserAuthCode.REGISTERED_USER, UserAuthCode.OWNER])

/-- C4 counterexample: the field name `fk_shortname`, which begins with
the `fk_short` tag but has no separator after it, does match the
`fk_short` directive (the match is a bare `startswith`), its stripped
name is `ame`, and it is treated as a relation field: skipped entirely
under suppression and filed as `ame -> None` otherwise — not a plain
scalar attribute access. -/
theorem C4_counterexample :
    _reserved_prefixes.filter (fun p => pyStartswith "fk_shortname" p)
      = [ReservedPrefix.FK_SHORT] ∧
    outKey "fk_shortname" = "ame" ∧
    (dictify_helper [sepInst] 0 ["fk_shortname"] ["fk_shortname"] true []).1 = [] ∧
    (dictify_helper [sepInst] 0 ["fk_shortname"] ["fk_shortname"] false []).1
      = [("ame", DVal.prim PyVal.vnone)] := by
  have h1 : _reserved_prefixes.filter (fun p => pyStartswith "fk_shortname" p)
      = [ReservedPrefix.FK_SHORT] := by decide
  have h2 : pyDrop "fk_shortname" (ReservedPrefix.FK_SHORT.length + 1) = "ame" := by
    decide
  refine ⟨h1, by decide, ?_, ?_⟩
  · rw [dictify_helper_true_eq]
    simp only [List.foldl_cons, List.foldl_nil]
    rw [if_neg (fun hc => absurd hc.2 (by decide))]
  · simp [dictify_helper, dictify_field, h1, h2, getD, getattr, sepInst,
      dictInsert, keys]

/-- C4 (amended): the relation-directive match takes the first reserved
tag, in declaration order, for which the field name starts with the
bare tag (no separator required); the filed key strips the tag plus one
further character; a field matching no tag is a plain scalar attribute
access filed under its own name; and in every case exactly one key —
the filed key — is produced for the field. -/
theorem C4_amended_match (field : String) (s : Store) (ref : Nat) :
    (_reserved_prefixes.filter (fun p => pyStartswith field p)).head?
      = _reserved_prefixes.find? (fun p => pyStartswith field p) ∧
    (∀ p rest, _reserved_prefixes.filter (fun p2 => pyStartswith field p2) = p :: rest →
      outKey field = pyDrop field (p.length + 1)) ∧
    (plainField field = true →
      (dictify_helper s ref [field] [field] false []).1
        = [(field, attrToDVal (getattr (getD s ref) field))]) ∧
    keys (dictify_helper s ref [field] [field] false []).1 = [outKey field] := by
  refine ⟨head?_filter _ _, fun p rest hf => by simp [outKey, hf], ?_, ?_⟩
  · intro hplain
    have hf : _reserved_prefixes.filter (fun p => pyStartswith field p) = [] := by
      unfold plainField at hplain
      exact List.isEmpty_iff.mp hplain
    rw [dictify_helper, if_pos (List.mem_singleton.mpr rfl), dictify_helper]
    dsimp only
    simp [dictify_field, hf, dictInsert]
  · obtain ⟨v, hv, _⟩ := dictify_field_false_insert s ref field []
    rw [dictify_helper, if_pos (List.mem_singleton.mpr rfl), dictify_helper]
    dsimp only
    rw [hv]
    simp [dictInsert, keys]

/-- C4 witness: the conventional field `fk_short_baz` strips to its
filed key, a plain field `id` is a plain attribute access, and the
helper files exactly one key for a field. -/
theorem C4_amended_witness :
    outKey "fk_short_baz" = pyDrop "fk_short_baz" (ReservedPrefix.FK_SHORT.length + 1) ∧
    (dictify_helper [sepInst] 0 ["id"] ["id"] false []).1
      = [("id", attrToDVal (getattr (getD [sepInst] 0) "id"))] ∧
    keys (dictify_helper [sepInst] 0 ["fk_short_baz"] ["fk_short_baz"] false []).1
      = [outKey "fk_short_baz"] :=
  ⟨(C4_amended_match "fk_short_baz" [sepInst] 0).2.1 ReservedPrefix.FK_SHORT []
      (by decide),
   (C4_amended_match "id" [sepInst] 0).2.2.1 (by decide),
   (C4_amended_match "fk_short_baz" [sepInst] 0).2.2.2⟩

end DjangoApiTools
